import Mathlib

/-!
Verification of the TCG-ShipAbility core against its specification.

The definitions below are a shallow embedding of the Python sources
`Shipping.py` and `fetch_lables.py`:

* rule-based parcel classification (`apply_rules_and_package_logic`,
  `_apply_letter_rule` in `Shipping.py`),
* rule-list maintenance (`load_config`, `_rule_dialog`,
  `_delete_selected_rule`, `_move_rule` in `Shipping.py`),
* rate selection and the bulk purchase loop (`buy_labels_and_build_pdf`
  in `Shipping.py`),
* the package-dimension gate (`_row_needs_dims`,
  `_packages_missing_count` in `Shipping.py`),
* label caching and acquisition (`try_load_cached_png`,
  `fetch_or_cache_png_for_shipment` in `fetch_lables.py`),
* the label image transform (`ensure_fit`, `png_to_rotated_padded_pil`,
  `build_pdf_from_shipments_multipage` in `fetch_lables.py`).

Machine-level conventions: Python strings are Lean `String`; Python
`str.lower`, `str.upper` and `str.strip` are modelled character-wise on
`String.data`; Python `float(...)` applied to the decimal strings this
program handles is modelled by an exact decimal parser producing a pair
(integer mantissa, power-of-ten scale), compared by cross multiplication
over `Int` (binary floating point rounding is not modelled; all prices
and dimensions in play are short decimal literals).
-/

/-- Model of Python `str.lower()` (ASCII, as used by this program). -/
def pyLower (s : String) : String := ⟨s.data.map Char.toLower⟩

/-- Model of Python `str.upper()` (ASCII, as used by this program). -/
def pyUpper (s : String) : String := ⟨s.data.map Char.toUpper⟩

/-- Model of Python `str.strip()`: drop whitespace from both ends. -/
def pyStrip (s : String) : String :=
  ⟨((s.data.dropWhile Char.isWhitespace).reverse.dropWhile Char.isWhitespace).reverse⟩

/-- A whitespace character is unchanged by `Char.toLower`. -/
theorem toLower_of_isWhitespace {c : Char} (h : c.isWhitespace = true) :
    c.toLower = c := by
  simp only [Char.isWhitespace, Bool.or_eq_true, decide_eq_true_eq] at h
  rcases h with ((h | h) | h) | h <;> subst h <;> decide

/-- A character whose lower-casing is not whitespace is itself not whitespace. -/
theorem not_isWhitespace_of_toLower {c d : Char} (hl : c.toLower = d)
    (hd : d.isWhitespace = false) : c.isWhitespace = false := by
  cases hws : c.isWhitespace
  · rfl
  · exfalso
    have hcd : c = d := by rw [← hl, toLower_of_isWhitespace hws]
    rw [← hcd] at hd
    rw [hws] at hd
    exact Bool.noConfusion hd

/-- `dropWhile` is the identity on a list whose head fails the predicate. -/
theorem dropWhile_eq_self_of_head {α : Type} (p : α → Bool) (l : List α)
    (h : ∀ c, l.head? = some c → p c = false) : l.dropWhile p = l := by
  cases l with
  | nil => rfl
  | cons a as =>
    have ha : p a = false := h a rfl
    simp [List.dropWhile_cons, ha]

/-- A string equal to "package" after lower-casing has no surrounding
whitespace, so stripping it is the identity. -/
theorem pyStrip_eq_self_of_pyLower_package {s : String}
    (h : pyLower s = "package") : pyStrip s = s := by
  have hd : s.data.map Char.toLower = "package".data := congrArg String.data h
  have hhead : ∀ c, s.data.head? = some c → c.isWhitespace = false := by
    intro c hc
    have h1 : (s.data.map Char.toLower).head? = some 'p' := by rw [hd]; rfl
    rw [List.head?_map, hc] at h1
    have h2 : c.toLower = 'p' := by
      simpa using h1
    exact not_isWhitespace_of_toLower h2 (by decide)
  have hlast : ∀ c, s.data.getLast? = some c → c.isWhitespace = false := by
    intro c hc
    have h1 : (s.data.map Char.toLower).getLast? = some 'e' := by rw [hd]; rfl
    rw [List.getLast?_map, hc] at h1
    have h2 : c.toLower = 'e' := by
      simpa using h1
    exact not_isWhitespace_of_toLower h2 (by decide)
  have hL : s.data.dropWhile Char.isWhitespace = s.data :=
    dropWhile_eq_self_of_head _ _ hhead
  have hR : s.data.reverse.dropWhile Char.isWhitespace = s.data.reverse := by
    refine dropWhile_eq_self_of_head _ _ ?_
    intro c hc
    rw [List.head?_reverse] at hc
    exact hlast c hc
  apply String.ext
  show ((s.data.dropWhile Char.isWhitespace).reverse.dropWhile
      Char.isWhitespace).reverse = s.data
  rw [hL, hR, List.reverse_reverse]

/-! ## Exact decimals: the model of Python `float` on this program's strings

`DecimalVal` represents `num / 10 ^ exp` exactly.  `pyFloat?` parses the
decimal literals (optional sign, digits, optional fraction) that
`float(...)` receives in this program; strings `float` would reject
(empty, lone `.`, non-digits) yield `none`. -/

structure DecimalVal where
  num : Int
  exp : Nat
deriving DecidableEq, Repr

/-- The exact rational value of a parsed decimal. -/
def DecimalVal.toRat (d : DecimalVal) : ℚ := (d.num : ℚ) / (10 : ℚ) ^ d.exp

/-- Strict comparison of two exact decimals by cross multiplication. -/
def DecimalVal.blt (a b : DecimalVal) : Bool :=
  decide (a.num * (10 : Int) ^ b.exp < b.num * (10 : Int) ^ a.exp)

theorem DecimalVal.blt_iff (a b : DecimalVal) :
    a.blt b = true ↔ a.toRat < b.toRat := by
  have ha : (0 : ℚ) < (10 : ℚ) ^ a.exp := by positivity
  have hb : (0 : ℚ) < (10 : ℚ) ^ b.exp := by positivity
  rw [DecimalVal.blt, decide_eq_true_eq, DecimalVal.toRat, DecimalVal.toRat,
    div_lt_div_iff₀ ha hb]
  norm_cast

theorem DecimalVal.toRat_pos {d : DecimalVal} (h : 0 < d.num) : 0 < d.toRat := by
  rw [DecimalVal.toRat]
  have : (0 : ℚ) < (d.num : ℚ) := by exact_mod_cast h
  positivity

theorem DecimalVal.toRat_nonpos {d : DecimalVal} (h : d.num ≤ 0) : d.toRat ≤ 0 := by
  rw [DecimalVal.toRat]
  have hn : (d.num : ℚ) ≤ 0 := by exact_mod_cast h
  have hp : (0 : ℚ) < (10 : ℚ) ^ d.exp := by positivity
  exact div_nonpos_of_nonpos_of_nonneg hn hp.le

/-- Numeric value of a digit run, most significant first. -/
def digitsVal (cs : List Char) : Nat :=
  cs.foldl (fun a c => a * 10 + (c.toNat - 48)) 0

/-- Parse an unsigned decimal literal: digits with an optional fractional
part, at least one digit in total (this is the shape `float` accepts for
the strings this program produces). -/
def parseUnsignedDecimal (cs : List Char) : Option DecimalVal :=
  let ip := cs.takeWhile Char.isDigit
  let rest := cs.dropWhile Char.isDigit
  match rest with
  | [] => if ip.isEmpty then none else some ⟨(digitsVal ip : Int), 0⟩
  | c :: fp =>
    if c = '.' && fp.all Char.isDigit && !(ip.isEmpty && fp.isEmpty) then
      some ⟨(digitsVal ip * 10 ^ fp.length + digitsVal fp : Nat), fp.length⟩
    else none

/-- Parse a signed decimal literal. -/
def parseSignedDecimal (cs : List Char) : Option DecimalVal :=
  match cs with
  | '-' :: rest => (parseUnsignedDecimal rest).map (fun d => ⟨-d.num, d.exp⟩)
  | '+' :: rest => parseUnsignedDecimal rest
  | _ => parseUnsignedDecimal cs

/-- Model of Python `float(s)` on this program's strings: strip
whitespace, then parse a signed decimal literal; `none` models the
`ValueError` raised on anything else. -/
def pyFloat? (s : String) : Option DecimalVal :=
  parseSignedDecimal (pyStrip s).data

/-! ## Rules and classification (`Shipping.py`)

A config rule.  `max_items` is the inclusive threshold; in the config it
is a JSON number, read back through `int(...)` wherever it is used, so it
is modelled as `Int`.  `weight_oz` is a number only ever copied verbatim
into the letter outcome, modelled as an exact decimal. -/

structure Rule where
  max_items : Int
  weight_oz : DecimalVal
  machinable : Bool
  predefined_package : String
deriving DecidableEq, Repr

/-- The sentinel test of `_apply_letter_rule`:
`str(rule.get("predefined_package", "")).strip().lower() == "package"`. -/
def wantsPackage (r : Rule) : Bool :=
  pyLower (pyStrip r.predefined_package) == "package"

/-- One row of the dataframe during `apply_rules_and_package_logic`.
String columns hold `""` for blank; `pwt`/`mach` are `none` for blank
(`parcel.weight` / `options.machinable`); `pkg` is this row's entry of
the package mask, `remaining` its entry of `remaining_letter`, `count`
its item count. -/
structure RowState where
  ppp : String
  plen : String
  pwid : String
  phei : String
  pwt : Option DecimalVal
  mach : Option Bool
  pkg : Bool
  remaining : Bool
  count : Int
deriving DecidableEq, Repr

/-- A row before any rule is applied: the six parcel/option columns are
assigned `""` up front (`Shipping.py` lines 719-724); `pkg` starts as the
externally supplied package hint and `remaining_letter` is its negation. -/
def initRow (count : Int) (hint : Bool) : RowState :=
  { ppp := "", plen := "", pwid := "", phei := "", pwt := none, mach := none,
    pkg := hint, remaining := !hint, count := count }

/-- `_apply_letter_rule` on one hit row: a rule whose sentinel says
"package" promotes the row (all parcel fields and machinable blanked,
mask set); any other rule writes the letter columns from the rule. -/
def applyLetterRuleRow (r : Rule) (row : RowState) : RowState :=
  if wantsPackage r then
    { row with pkg := true, ppp := "", plen := "", pwid := "", phei := "",
               pwt := none, mach := none }
  else
    { row with pwt := some r.weight_oz, mach := some r.machinable,
               ppp := r.predefined_package, plen := "", pwid := "", phei := "" }

/-- One iteration of the rule loop, seen from a single row: the row is
hit when it is still a remaining letter and `count <= threshold`; a hit
applies the rule and removes the row from `remaining_letter`. -/
def stepRow (r : Rule) (row : RowState) : RowState :=
  if row.remaining && decide (row.count ≤ r.max_items) then
    { applyLetterRuleRow r row with remaining := false }
  else row

/-- One iteration of the rule loop over the whole dataframe. -/
def applyRuleStep (r : Rule) (rows : List RowState) : List RowState :=
  rows.map (stepRow r)

/-- The final re-blank (`Shipping.py` lines 757-758): every row in the
package mask gets its five parcel columns blanked (machinable is not in
that list; for package rows it is already blank). -/
def finalBlankRow (row : RowState) : RowState :=
  if row.pkg then
    { row with ppp := "", plen := "", pwid := "", phei := "", pwt := none }
  else row

/-- `apply_rules_and_package_logic`: rows are initialised from
`(item_count, is_package_hint)` pairs, the rule loop runs over the rule
list in order, rows still remaining afterwards get the last rule as a
fallback, and finally package-mask rows are re-blanked. -/
def apply_rules_and_package_logic (rules : List Rule) (inputs : List (Int × Bool)) :
    List RowState :=
  let rows0 := inputs.map (fun p => initRow p.1 p.2)
  let afterLoop := rules.foldl (fun acc r => applyRuleStep r acc) rows0
  let afterFallback :=
    match rules.getLast? with
    | some rl =>
        afterLoop.map (fun (row : RowState) =>
          if row.remaining then applyLetterRuleRow rl row else row)
    | none => afterLoop
  afterFallback.map finalBlankRow

/-- The same pipeline traced for one row (the loop is row-wise). -/
def classifyRowState (rules : List Rule) (c : Int) (hint : Bool) : RowState :=
  let row := rules.foldl (fun st r => stepRow r st) (initRow c hint)
  let row2 :=
    match rules.getLast? with
    | some rl => if row.remaining then applyLetterRuleRow rl row else row
    | none => row
  finalBlankRow row2

/-- The externally visible parcel columns of a processed row. -/
structure ParcelOut where
  ppp : String
  plen : String
  pwid : String
  phei : String
  pwt : Option DecimalVal
  mach : Option Bool
  pkg : Bool
deriving DecidableEq, Repr

def RowState.out (row : RowState) : ParcelOut :=
  ⟨row.ppp, row.plen, row.pwid, row.phei, row.pwt, row.mach, row.pkg⟩

/-- Classification outcome of a letter rule: columns copied verbatim. -/
def letterOut (r : Rule) : ParcelOut :=
  ⟨r.predefined_package, "", "", "", some r.weight_oz, some r.machinable, false⟩

/-- Classification outcome of a package promotion: everything blank. -/
def packageOut : ParcelOut := ⟨"", "", "", "", none, none, true⟩

/-- The outcome a rule produces on a letter row. -/
def ruleOut (r : Rule) : ParcelOut :=
  if wantsPackage r then packageOut else letterOut r

/-- The rule `apply_rules_and_package_logic` applies to a non-hinted row:
the first rule in list order whose threshold admits the count, else the
last rule of the list as fallback. -/
def matchedRule (rules : List Rule) (c : Int) : Option Rule :=
  match rules.find? (fun r => decide (c ≤ r.max_items)) with
  | some r => some r
  | none => rules.getLast?

/-! ### Per-row characterisation of the classification loop -/

/-- The rule loop acts on each row independently. -/
theorem foldl_applyRuleStep_eq_map (rules : List Rule) (rows : List RowState) :
    rules.foldl (fun acc r => applyRuleStep r acc) rows
      = rows.map (fun row => rules.foldl (fun st r => stepRow r st) row) := by
  induction rules generalizing rows with
  | nil => simp
  | cons r rs ih =>
    rw [List.foldl_cons, ih, applyRuleStep, List.map_map]
    simp only [List.foldl_cons]
    rfl

/-- The whole pipeline acts on each input row independently. -/
theorem apply_rules_eq_map (rules : List Rule) (inputs : List (Int × Bool)) :
    apply_rules_and_package_logic rules inputs
      = inputs.map (fun p => classifyRowState rules p.1 p.2) := by
  simp only [apply_rules_and_package_logic, classifyRowState,
    foldl_applyRuleStep_eq_map, List.map_map]
  cases rules.getLast? <;> simp [List.map_map, Function.comp]

/-- A row removed from `remaining_letter` is never touched again. -/
theorem foldl_stepRow_of_not_remaining (rules : List Rule) (row : RowState)
    (h : row.remaining = false) :
    rules.foldl (fun st r => stepRow r st) row = row := by
  induction rules with
  | nil => rfl
  | cons r rs ih =>
    have : stepRow r row = row := by
      rw [stepRow, h]
      simp
    rw [List.foldl_cons, this, ih]

/-- The rule loop applies exactly the first rule (in list order) whose
threshold admits the row's count, and clears `remaining_letter` there. -/
theorem foldl_stepRow_char (rules : List Rule) (row : RowState)
    (h : row.remaining = true) :
    rules.foldl (fun st r => stepRow r st) row =
      match rules.find? (fun r => decide (row.count ≤ r.max_items)) with
      | some r => { applyLetterRuleRow r row with remaining := false }
      | none => row := by
  induction rules with
  | nil => rfl
  | cons r rs ih =>
    rw [List.foldl_cons, List.find?_cons]
    by_cases hc : row.count ≤ r.max_items
    · have hs : stepRow r row = { applyLetterRuleRow r row with remaining := false } := by
        rw [stepRow, h]
        simp [hc]
      rw [hs, foldl_stepRow_of_not_remaining rs _ rfl]
      simp [hc]
    · have hs : stepRow r row = row := by
        rw [stepRow, h]
        simp [hc]
      rw [hs, ih]
      simp [hc]

/-- `out` ignores the bookkeeping fields. -/
theorem out_set_remaining (row : RowState) (b : Bool) :
    ({ row with remaining := b } : RowState).out = row.out := rfl

/-- Re-blanking likewise ignores the `remaining_letter` flag. -/
theorem finalBlank_out_set_remaining (row : RowState) (b : Bool) :
    (finalBlankRow { row with remaining := b }).out = (finalBlankRow row).out := by
  rw [finalBlankRow, finalBlankRow]
  cases hp : row.pkg <;> simp [hp, RowState.out]

/-- Applying a rule to a letter row then re-blanking yields exactly the
rule's outcome. -/
theorem out_finalBlank_applyLetterRule (r : Rule) (row : RowState)
    (h : row.pkg = false) :
    (finalBlankRow (applyLetterRuleRow r row)).out = ruleOut r := by
  rw [applyLetterRuleRow, ruleOut]
  by_cases hw : wantsPackage r
  · simp only [hw, if_true]
    rw [finalBlankRow]
    simp [RowState.out, packageOut]
  · simp only [hw, if_false]
    rw [finalBlankRow]
    simp only [h]
    simp [RowState.out, letterOut]

/-- Outcome of the per-row pipeline on a non-hinted row, by cases on
whether some rule's threshold admits the count. -/
theorem classifyRowState_char (rules : List Rule) (c : Int) :
    (classifyRowState rules c false).out =
      match rules.find? (fun r => decide (c ≤ r.max_items)) with
      | some r => ruleOut r
      | none =>
        match rules.getLast? with
        | some rl => ruleOut rl
        | none => (initRow c false).out := by
  unfold classifyRowState
  have hrem : (initRow c false).remaining = true := rfl
  have hcount : (initRow c false).count = c := rfl
  rw [foldl_stepRow_char rules _ hrem, hcount]
  cases hf : rules.find? (fun r => decide (c ≤ r.max_items)) with
  | some r =>
    cases hl : rules.getLast? with
    | none =>
      exfalso
      have hmem := List.mem_of_find?_eq_some hf
      cases rules with
      | nil => simp at hmem
      | cons a as => simp [List.getLast?_eq_none_iff] at hl
    | some rl =>
      dsimp only
      have hif : (if ({ applyLetterRuleRow r (initRow c false) with remaining := false } :
            RowState).remaining = true
          then applyLetterRuleRow rl
            { applyLetterRuleRow r (initRow c false) with remaining := false }
          else { applyLetterRuleRow r (initRow c false) with remaining := false })
          = { applyLetterRuleRow r (initRow c false) with remaining := false } := by
        simp
      rw [hif, finalBlank_out_set_remaining, out_finalBlank_applyLetterRule r _ rfl]
  | none =>
    cases hl : rules.getLast? with
    | none => rfl
    | some rl =>
      dsimp only
      rw [if_pos hrem, out_finalBlank_applyLetterRule rl _ rfl]

/-! ## Rule-list maintenance (`load_config`, `_rule_dialog`,
`_delete_selected_rule`, `_move_rule`) -/

/-- Ordering of rules by threshold, the sort key
`lambda r: int(r["max_items"])` used by `load_config` and `_rule_dialog`. -/
def RuleLe (a b : Rule) : Prop := a.max_items ≤ b.max_items

instance : DecidableRel RuleLe :=
  fun a b => inferInstanceAs (Decidable (a.max_items ≤ b.max_items))

instance : IsTotal Rule RuleLe := ⟨fun a b => Int.le_total a.max_items b.max_items⟩

instance : IsTrans Rule RuleLe := ⟨fun _ _ _ h1 h2 => le_trans h1 h2⟩

/-- The `DEFAULT_CONFIG["rules"]` list (weight 3.5 is the exact decimal
35/10). -/
def default_rules : List Rule :=
  [⟨7, ⟨1, 0⟩, true, "Letter"⟩,
   ⟨14, ⟨2, 0⟩, true, "Letter"⟩,
   ⟨36, ⟨35, 1⟩, false, "Letter"⟩,
   ⟨80, ⟨6, 0⟩, true, "Flat"⟩,
   ⟨9999, ⟨1, 0⟩, true, "Package"⟩]

/-- The rules part of `load_config`: an empty (or non-list) rules entry
falls back to the defaults, otherwise the loaded list is sorted ascending
by `int(max_items)`.  (Python `sorted` is a stable sort; only the
resulting order matters here, so insertion sort stands in for it.) -/
def load_config_rules (loaded : List Rule) : List Rule :=
  if loaded.isEmpty then default_rules
  else List.insertionSort RuleLe loaded

/-- `_rule_dialog`'s OK handler when adding: append the new rule, then
`self.config["rules"].sort(key=lambda r: int(r["max_items"]))`. -/
def rule_dialog_add (rules : List Rule) (new_rule : Rule) : List Rule :=
  List.insertionSort RuleLe (rules ++ [new_rule])

/-- `_rule_dialog`'s OK handler when editing: replace the rule at
`index`, then sort by `int(max_items)`. -/
def rule_dialog_edit (rules : List Rule) (index : Nat) (new_rule : Rule) : List Rule :=
  List.insertionSort RuleLe (rules.set index new_rule)

/-- `_delete_selected_rule`: `del self.config["rules"][idx]` with no
re-sort. -/
def delete_selected_rule (rules : List Rule) (idx : Nat) : List Rule :=
  rules.eraseIdx idx

/-- `rules[idx], rules[new_idx] = rules[new_idx], rules[idx]`. -/
def swapIdx (l : List Rule) (i j : Nat) : List Rule :=
  match l[i]?, l[j]? with
  | some a, some b => (l.set i b).set j a
  | _, _ => l

/-- `_move_rule`: swap the selected rule with its neighbour in the given
direction; out-of-range moves are ignored.  No re-sort happens here. -/
def move_rule (rules : List Rule) (idx : Nat) (direction : Int) : List Rule :=
  let new_idx : Int := (idx : Int) + direction
  if new_idx < 0 ∨ (rules.length : Int) ≤ new_idx then rules
  else swapIdx rules idx new_idx.toNat

/-! ## Claim C1 -/

/-- Under an ascending-sorted rule list, the first rule (in list order)
whose threshold admits the count also has the least threshold among all
admitting rules. -/
theorem find?_min_of_sorted (rules : List Rule) (c : Int)
    (hs : List.Sorted RuleLe rules) (r : Rule)
    (hf : rules.find? (fun r => decide (c ≤ r.max_items)) = some r) :
    ∀ r' ∈ rules, c ≤ r'.max_items → r.max_items ≤ r'.max_items := by
  induction rules with
  | nil => simp at hf
  | cons a as ih =>
    rcases List.sorted_cons.mp hs with ⟨ha, hs'⟩
    by_cases hc : c ≤ a.max_items
    · rw [List.find?_cons_of_pos _ (by simpa using hc)] at hf
      have har : a = r := Option.some.inj hf
      subst har
      intro r' hr' _
      rcases List.mem_cons.mp hr' with h | h
      · subst h; exact le_refl _
      · exact ha r' h
    · rw [List.find?_cons_of_neg _ (by simpa using hc)] at hf
      intro r' hr' hcr'
      rcases List.mem_cons.mp hr' with h | h
      · subst h; exact absurd hcr' hc
      · exact ih hs' hf r' h hcr'

/-- The observable classification of input row `i`. -/
theorem out_at_index (rules : List Rule) (inputs : List (Int × Bool)) (i : Nat)
    (c : Int) (hint : Bool) (hrow : inputs[i]? = some (c, hint)) :
    ((apply_rules_and_package_logic rules inputs)[i]?).map RowState.out
      = some ((classifyRowState rules c hint).out) := by
  rw [apply_rules_eq_map, List.getElem?_map, hrow]
  rfl

/-- C1: for every row not hinted as a package, classification applies the
first rule of the ascending-sorted rule list whose threshold satisfies
`item_count <= max_items` (which, by sortedness, is a lowest-threshold
admitting rule); and when every rule's threshold is exceeded, the last
rule of the list is applied as the fallback with the same letter/package
promotion logic (`ruleOut`). -/
theorem c1_first_match_and_fallback (rules : List Rule) (inputs : List (Int × Bool))
    (hs : List.Sorted RuleLe rules) (i : Nat) (c : Int)
    (hrow : inputs[i]? = some (c, false)) :
    (∀ r, rules.find? (fun r => decide (c ≤ r.max_items)) = some r →
        ((apply_rules_and_package_logic rules inputs)[i]?).map RowState.out
            = some (ruleOut r) ∧
        c ≤ r.max_items ∧
        ∀ r' ∈ rules, c ≤ r'.max_items → r.max_items ≤ r'.max_items) ∧
    ((∀ r' ∈ rules, r'.max_items < c) → ∀ rl, rules.getLast? = some rl →
        ((apply_rules_and_package_logic rules inputs)[i]?).map RowState.out
            = some (ruleOut rl)) := by
  have hout := out_at_index rules inputs i c false hrow
  constructor
  · intro r hf
    refine ⟨?_, ?_, find?_min_of_sorted rules c hs r hf⟩
    · rw [hout, classifyRowState_char, hf]
    · have := List.find?_some hf
      simpa using this
  · intro hall rl hl
    have hnone : rules.find? (fun r => decide (c ≤ r.max_items)) = none := by
      rw [List.find?_eq_none]
      intro x hx
      simp only [decide_eq_true_eq]
      exact not_le.mpr (hall x hx)
    rw [hout, classifyRowState_char, hnone, hl]

/-- Witness for C1 at the spec's scenario 1 inputs: with the default
rules, count 5 gets the first rule (threshold 7, a letter), and count
50000 exceeds every threshold and gets the last rule (the package
sentinel). -/
theorem c1_first_match_and_fallback_witness :
    ((apply_rules_and_package_logic default_rules [((5 : Int), false)])[0]?).map
        RowState.out = some (ruleOut ⟨7, ⟨1, 0⟩, true, "Letter"⟩) ∧
    ((apply_rules_and_package_logic default_rules [((50000 : Int), false)])[0]?).map
        RowState.out = some (ruleOut ⟨9999, ⟨1, 0⟩, true, "Package"⟩) := by
  constructor
  · exact ((c1_first_match_and_fallback default_rules [((5 : Int), false)]
      (by decide) 0 5 rfl).1 ⟨7, ⟨1, 0⟩, true, "Letter"⟩ (by decide)).1
  · exact (c1_first_match_and_fallback default_rules [((50000 : Int), false)]
      (by decide) 0 50000 rfl).2 (by decide) ⟨9999, ⟨1, 0⟩, true, "Package"⟩ (by decide)

/-! ## Claim C2 -/

/-- C2: a row matched by a rule (first admitting rule or last-rule
fallback) whose `predefined_package` equals "Package" case-insensitively
is promoted to a package: `parcel.predefined_package`, `parcel.length`,
`parcel.width`, `parcel.height`, `parcel.weight` and `options.machinable`
all end up blank (`packageOut`), whatever the rule's `weight_oz` and
`machinable` say. -/
theorem c2_package_sentinel_blanks_all (rules : List Rule) (inputs : List (Int × Bool))
    (i : Nat) (c : Int) (r : Rule) (hrow : inputs[i]? = some (c, false))
    (hmatch : matchedRule rules c = some r)
    (hp : pyLower r.predefined_package = pyLower "Package") :
    ((apply_rules_and_package_logic rules inputs)[i]?).map RowState.out
      = some packageOut := by
  have hpl : pyLower r.predefined_package = "package" := by
    rw [hp]; rfl
  have hw : wantsPackage r = true := by
    show (pyLower (pyStrip r.predefined_package) == "package") = true
    rw [pyStrip_eq_self_of_pyLower_package hpl, hpl]
    rfl
  have hro : ruleOut r = packageOut := by
    rw [ruleOut, if_pos hw]
  have hout := out_at_index rules inputs i c false hrow
  rw [hout, classifyRowState_char]
  rw [matchedRule] at hmatch
  cases hf : rules.find? (fun r => decide (c ≤ r.max_items)) with
  | some r0 =>
    rw [hf] at hmatch
    have hr0 : r0 = r := Option.some.inj hmatch
    show some (ruleOut r0) = some packageOut
    rw [hr0, hro]
  | none =>
    rw [hf] at hmatch
    cases hl : rules.getLast? with
    | none =>
      rw [hl] at hmatch
      exact Option.noConfusion hmatch
    | some rl =>
      rw [hl] at hmatch
      have hrl : rl = r := Option.some.inj hmatch
      show some (ruleOut rl) = some packageOut
      rw [hrl, hro]

/-- Witness for C2: with the default rules, a 100-item row falls to the
threshold-9999 rule whose label is "Package" and comes out fully blank. -/
theorem c2_package_sentinel_blanks_all_witness :
    ((apply_rules_and_package_logic default_rules [((100 : Int), false)])[0]?).map
        RowState.out = some packageOut :=
  c2_package_sentinel_blanks_all default_rules [((100 : Int), false)] 0 100
    ⟨9999, ⟨1, 0⟩, true, "Package"⟩ rfl (by decide) rfl

/-! ## Claim C9 -/

def ruleSeven : Rule := ⟨7, ⟨1, 0⟩, true, "Letter"⟩

def ruleFourteen : Rule := ⟨14, ⟨2, 0⟩, true, "Letter"⟩

/-- Counterexample to C9 as stated: moving a rule up swaps it with its
neighbour and does not re-sort, so a sorted two-rule list ends up
unsorted after `_move_rule`. -/
theorem c9_counterexample :
    List.Sorted RuleLe [ruleSeven, ruleFourteen] ∧
    move_rule [ruleSeven, ruleFourteen] 1 (-1) = [ruleFourteen, ruleSeven] ∧
    ¬ List.Sorted RuleLe (move_rule [ruleSeven, ruleFourteen] 1 (-1)) := by
  refine ⟨by decide, by decide, by decide⟩

/-- C9 amended: the rule list is sorted ascending by `max_items` after
load, add and edit, and deletion preserves sortedness; the move
operation is excluded (it swaps adjacent rules without re-sorting, see
the counterexample). -/
theorem c9_amended_sorted_after_ops :
    (∀ loaded : List Rule, List.Sorted RuleLe (load_config_rules loaded)) ∧
    (∀ (rules : List Rule) (nr : Rule), List.Sorted RuleLe (rule_dialog_add rules nr)) ∧
    (∀ (rules : List Rule) (i : Nat) (nr : Rule),
        List.Sorted RuleLe (rule_dialog_edit rules i nr)) ∧
    (∀ (rules : List Rule) (i : Nat), List.Sorted RuleLe rules →
        List.Sorted RuleLe (delete_selected_rule rules i)) := by
  refine ⟨?_, ?_, ?_, ?_⟩
  · intro loaded
    rw [load_config_rules]
    split
    · decide
    · exact List.sorted_insertionSort RuleLe loaded
  · intro rules nr
    exact List.sorted_insertionSort RuleLe (rules ++ [nr])
  · intro rules i nr
    exact List.sorted_insertionSort RuleLe (rules.set i nr)
  · intro rules i hs
    exact List.Pairwise.sublist (List.eraseIdx_sublist rules i) hs

/-- Witness for the amended C9 on concrete lists. -/
theorem c9_amended_sorted_after_ops_witness :
    List.Sorted RuleLe (load_config_rules []) ∧
    List.Sorted RuleLe (rule_dialog_add [ruleFourteen] ruleSeven) ∧
    List.Sorted RuleLe (rule_dialog_edit [ruleSeven, ruleFourteen] 0 ruleFourteen) ∧
    List.Sorted RuleLe (delete_selected_rule [ruleSeven, ruleFourteen] 0) :=
  ⟨c9_amended_sorted_after_ops.1 [],
   c9_amended_sorted_after_ops.2.1 [ruleFourteen] ruleSeven,
   c9_amended_sorted_after_ops.2.2.1 [ruleSeven, ruleFourteen] 0 ruleFourteen,
   c9_amended_sorted_after_ops.2.2.2 [ruleSeven, ruleFourteen] 0 (by decide)⟩

/-! ## Rate selection (`buy_labels_and_build_pdf`, `Shipping.py` lines 1250-1267)

A rate quote as this code reads it: `r.get("carrier","")`,
`r.get("service","")`, `r.get("rate", "1e12")` (so `rate = none` models a
missing "rate" key) and `r["id"]`. -/

structure Quote where
  carrier : String
  service : String
  rate : Option String
  id : String
deriving DecidableEq, Repr

/-- The desired-rate test:
`str(r.get("carrier","")).upper() == want_carrier.upper() and str(r.get("service","")).upper() == want_service.upper()`. -/
def quoteMatches (want_carrier want_service : String) (q : Quote) : Bool :=
  (pyUpper q.carrier == pyUpper want_carrier) &&
    (pyUpper q.service == pyUpper want_service)

/-- The desired-match loop: when both desired fields are truthy, the id
of the first case-insensitively matching quote. -/
def desiredMatchId (want_carrier want_service : String) (rates : List Quote) :
    Option String :=
  if want_carrier ≠ "" ∧ want_service ≠ "" then
    (rates.find? (quoteMatches want_carrier want_service)).map (fun q => q.id)
  else none

/-- Python truthiness of `chosen_rate_id` (`None` and `""` are falsy). -/
def truthyId : Option String → Bool
  | none => false
  | some s => s != ""

/-- The sort key `float(r.get("rate", "1e12"))`: a missing "rate" key
becomes the constant 1e12; a present but unparseable price is a raised
`ValueError`, modelled as `none`. -/
def rateKey (q : Quote) : Option DecimalVal :=
  match q.rate with
  | none => some ⟨1000000000000, 0⟩
  | some s => pyFloat? s

/-- Whether `sorted(rates, key=...)` can evaluate every key. -/
def allRatesParse (rates : List Quote) : Bool :=
  rates.all (fun q => (rateKey q).isSome)

/-- Each quote paired with its sort key (total, for use under
`allRatesParse`). -/
def keyedRates (rates : List Quote) : List (Quote × DecimalVal) :=
  rates.map (fun q => (q, (rateKey q).getD ⟨0, 0⟩))

/-- First occurrence of the minimum key.  Python `sorted` is stable, so
`sorted(rates, key=k)[0]` is exactly the first quote attaining the least
key; this function computes that element directly. -/
def minFirstKeyed : List (Quote × DecimalVal) → Option (Quote × DecimalVal)
  | [] => none
  | p :: rest =>
    match minFirstKeyed rest with
    | none => some p
    | some m => if DecimalVal.blt m.2 p.2 then some m else some p

/-- `sorted(rates, key=lambda r: float(r.get("rate","1e12")))[0]["id"]`,
`none` modelling the exception raised when some key fails to parse. -/
def cheapestRateId (rates : List Quote) : Option String :=
  if allRatesParse rates then
    (minFirstKeyed (keyedRates rates)).map (fun p => p.1.id)
  else none

/-- The whole rate-selection block: try the desired match; if the chosen
id is falsy and there are rates, sort by price (falling back to the first
quote's id when the sort raises). -/
def chooseRateId (want_carrier want_service : String) (rates : List Quote) :
    Option String :=
  let chosen := desiredMatchId want_carrier want_service rates
  if !truthyId chosen && !rates.isEmpty then
    match cheapestRateId rates with
    | some i => some i
    | none => (rates.head?).map (fun q => q.id)
  else chosen

/-- `minFirstKeyed` of a nonempty list is some element. -/
theorem minFirstKeyed_cons_isSome (p : Quote × DecimalVal)
    (rest : List (Quote × DecimalVal)) :
    ∃ m, minFirstKeyed (p :: rest) = some m := by
  rw [minFirstKeyed]
  cases minFirstKeyed rest with
  | none => exact ⟨p, rfl⟩
  | some m =>
    by_cases hb : DecimalVal.blt m.2 p.2 = true
    · refine ⟨m, ?_⟩
      show (if DecimalVal.blt m.2 p.2 = true then some m else some p) = some m
      rw [if_pos hb]
    · refine ⟨p, ?_⟩
      show (if DecimalVal.blt m.2 p.2 = true then some m else some p) = some p
      rw [if_neg hb]

/-- Characterisation of `minFirstKeyed`: the result is in the list, its
key is minimal, and every strictly earlier element has a strictly larger
key (first occurrence wins ties). -/
theorem minFirstKeyed_char (l : List (Quote × DecimalVal)) :
    ∀ m, minFirstKeyed l = some m →
    m ∈ l ∧ (∀ p ∈ l, m.2.toRat ≤ p.2.toRat) ∧
    ∃ i : Nat, l[i]? = some m ∧
      ∀ j : Nat, j < i → ∀ q : Quote × DecimalVal,
        l[j]? = some q → m.2.toRat < q.2.toRat := by
  induction l with
  | nil =>
    intro m h
    exact Option.noConfusion h
  | cons p rest ih =>
    intro m h
    rw [minFirstKeyed] at h
    cases hm : minFirstKeyed rest with
    | none =>
      rw [hm] at h
      have hmp : p = m := Option.some.inj h
      subst hmp
      have hrest : rest = [] := by
        cases rest with
        | nil => rfl
        | cons q t =>
          obtain ⟨m', hm'⟩ := minFirstKeyed_cons_isSome q t
          rw [hm'] at hm
          exact Option.noConfusion hm
      subst hrest
      refine ⟨List.mem_cons_self p [], ?_, 0, rfl, ?_⟩
      · intro q hq
        have : q = p := by simpa using hq
        rw [this]
      · intro j hj
        exact absurd hj (Nat.not_lt_zero j)
    | some m' =>
      rw [hm] at h
      have h' : (if DecimalVal.blt m'.2 p.2 = true then some m' else some p)
          = some m := h
      obtain ⟨hmem', hmin', i, hi, hj⟩ := ih m' hm
      by_cases hb : DecimalVal.blt m'.2 p.2 = true
      · rw [if_pos hb] at h'
        have hmm : m' = m := Option.some.inj h'
        subst hmm
        have hlt : m'.2.toRat < p.2.toRat := (DecimalVal.blt_iff _ _).mp hb
        refine ⟨List.mem_cons_of_mem p hmem', ?_, i + 1, ?_, ?_⟩
        · intro q hq
          rcases List.mem_cons.mp hq with hqp | hqr
          · rw [hqp]; exact le_of_lt hlt
          · exact hmin' q hqr
        · simpa using hi
        · intro j hjlt q hq
          cases j with
          | zero =>
            have hqp : p = q := by simpa using hq
            rw [← hqp]; exact hlt
          | succ j' =>
            have hq' : rest[j']? = some q := by simpa using hq
            exact hj j' (Nat.lt_of_succ_lt_succ hjlt) q hq'
      · rw [if_neg hb] at h'
        have hpm : p = m := Option.some.inj h'
        subst hpm
        have hge : p.2.toRat ≤ m'.2.toRat := by
          by_contra hcon
          exact hb ((DecimalVal.blt_iff _ _).mpr (lt_of_not_le hcon))
        refine ⟨List.mem_cons_self p rest, ?_, 0, by simp, ?_⟩
        · intro q hq
          rcases List.mem_cons.mp hq with hqp | hqr
          · rw [hqp]
          · exact le_trans hge (hmin' q hqr)
        · intro j hjlt
          exact absurd hjlt (Nat.not_lt_zero j)

/-- Under `allRatesParse`, every quote's key is the second component of
its `keyedRates` pair. -/
theorem rateKey_of_allParse {rates : List Quote} (hall : allRatesParse rates = true)
    {q : Quote} (hq : q ∈ rates) :
    rateKey q = some ((rateKey q).getD ⟨0, 0⟩) := by
  rw [allRatesParse, List.all_eq_true] at hall
  have hs := hall q hq
  cases hk : rateKey q with
  | none => rw [hk] at hs; simp at hs
  | some d => rfl

/-! ## Claim C3 -/

/-- C3 amended: with both desired fields non-empty and some quote
matching case-insensitively, selection returns the first matching
quote's id — provided that id is non-empty.  (No assumption on prices:
a cheaper non-matching quote cannot override the match.)  When the
matching quote's id is the empty string, Python truthiness sends the
code into the cheapest-rate fallback instead — see the
counterexample. -/
theorem c3_amended_exact_match_preferred (want_carrier want_service : String)
    (rates : List Quote) (q : Quote)
    (hwc : want_carrier ≠ "") (hws : want_service ≠ "")
    (hfind : rates.find? (quoteMatches want_carrier want_service) = some q)
    (hid : q.id ≠ "") :
    chooseRateId want_carrier want_service rates = some q.id := by
  have hdes : desiredMatchId want_carrier want_service rates = some q.id := by
    rw [desiredMatchId, if_pos ⟨hwc, hws⟩, hfind]
    rfl
  simp [chooseRateId, hdes, truthyId, hid]

/-- Witness for the amended C3 (the spec's scenario 2 with a cheaper
non-matching quote): desired (USPS, First) picks r1 over the cheaper
UPS/Ground r2. -/
theorem c3_amended_exact_match_preferred_witness :
    chooseRateId "USPS" "First"
      [⟨"USPS", "First", some "3.50", "r1"⟩, ⟨"UPS", "Ground", some "0.50", "r2"⟩]
      = some "r1" :=
  c3_amended_exact_match_preferred "USPS" "First"
    [⟨"USPS", "First", some "3.50", "r1"⟩, ⟨"UPS", "Ground", some "0.50", "r2"⟩]
    ⟨"USPS", "First", some "3.50", "r1"⟩
    (by decide) (by decide) (by decide) (by decide)

def quoteMatchBlankId : Quote := ⟨"USPS", "First", some "5.00", ""⟩

def quoteCheapOther : Quote := ⟨"UPS", "Ground", some "1.00", "r2"⟩

/-- Counterexample to C3 as stated: the first quote matches the desired
(USPS, First) pair case-insensitively, but its rate id is the empty
string, which is falsy in `if not chosen_rate_id`; selection therefore
falls through to the cheapest quote and returns the non-matching r2. -/
theorem c3_counterexample :
    quoteMatches "USPS" "First" quoteMatchBlankId = true ∧
    [quoteMatchBlankId, quoteCheapOther].find? (quoteMatches "USPS" "First")
      = some quoteMatchBlankId ∧
    quoteMatches "USPS" "First" quoteCheapOther = false ∧
    chooseRateId "USPS" "First" [quoteMatchBlankId, quoteCheapOther] = some "r2" ∧
    quoteMatchBlankId.id ≠ "r2" := by decide

/-! ## Claim C4 -/

/-- C4 amended: when the desired-match step yields nothing usable, the
selection depends on whether `sorted`'s key function survives every
quote: if every price key parses (a missing price key counts as the
constant 1e12), the first quote attaining the least key is selected
(ties to first input order); if any present price string fails to parse,
the sort raises and the first quote of the input is selected — quotes
with unparseable prices are not individually excluded. -/
theorem c4_amended_cheapest_with_crash_fallback (want_carrier want_service : String)
    (rates : List Quote) (hne : rates ≠ [])
    (hfalsy : truthyId (desiredMatchId want_carrier want_service rates) = false) :
    (allRatesParse rates = true →
      ∃ m : Quote × DecimalVal, minFirstKeyed (keyedRates rates) = some m ∧
        chooseRateId want_carrier want_service rates = some m.1.id ∧
        m.1 ∈ rates ∧ rateKey m.1 = some m.2 ∧
        (∀ q ∈ rates, ∀ d : DecimalVal, rateKey q = some d → m.2.toRat ≤ d.toRat) ∧
        (∃ i : Nat, (keyedRates rates)[i]? = some m ∧
          ∀ j : Nat, j < i → ∀ p : Quote × DecimalVal,
            (keyedRates rates)[j]? = some p → m.2.toRat < p.2.toRat)) ∧
    (allRatesParse rates = false →
      chooseRateId want_carrier want_service rates
        = rates.head?.map (fun q => q.id)) := by
  have hEmpty : rates.isEmpty = false := by
    cases rates with
    | nil => exact absurd rfl hne
    | cons a as => rfl
  constructor
  · intro hall
    obtain ⟨a, as, hras⟩ : ∃ a as, rates = a :: as := by
      cases rates with
      | nil => exact absurd rfl hne
      | cons a as => exact ⟨a, as, rfl⟩
    have hcons : keyedRates rates
        = (a, (rateKey a).getD ⟨0, 0⟩) :: keyedRates as := by
      rw [hras]; rfl
    have hex : ∃ m, minFirstKeyed (keyedRates rates) = some m := by
      rw [hcons]
      exact minFirstKeyed_cons_isSome _ _
    obtain ⟨m, hmin⟩ := hex
    have hcheap : cheapestRateId rates = some m.1.id := by
      rw [cheapestRateId, if_pos hall, hmin]
      rfl
    have hchoose : chooseRateId want_carrier want_service rates = some m.1.id := by
      simp [chooseRateId, hfalsy, hEmpty, hcheap]
    obtain ⟨hmem, hminall, i, hi, hj⟩ := minFirstKeyed_char (keyedRates rates) m hmin
    obtain ⟨q0, hq0mem, rfl⟩ := List.mem_map.mp hmem
    refine ⟨_, hmin, hchoose, hq0mem, rateKey_of_allParse hall hq0mem, ?_, i, hi, hj⟩
    intro q hq d hd
    have hqk : (q, (rateKey q).getD ⟨0, 0⟩) ∈ keyedRates rates :=
      List.mem_map_of_mem _ hq
    have hle := hminall _ hqk
    have hgd : (rateKey q).getD ⟨0, 0⟩ = d := by rw [hd]; rfl
    rw [hgd] at hle
    exact hle
  · intro hfail
    have hcheap : cheapestRateId rates = none := by
      rw [cheapestRateId, if_neg]
      simp [hfail]
    simp [chooseRateId, hfalsy, hEmpty, hcheap]

def tieRates : List Quote :=
  [⟨"USPS", "First", some "3.50", "r1"⟩, ⟨"UPS", "Ground", some "3.50", "r2"⟩,
   ⟨"FedEx", "2Day", some "9.99", "r3"⟩]

/-- Witness for the amended C4: with no desired pair, the tie at 3.50 is
resolved to the first quote in input order (r1); the theorem applies at
these inputs. -/
theorem c4_amended_cheapest_with_crash_fallback_witness :
    chooseRateId "" "" tieRates = some "r1" ∧
    ((allRatesParse tieRates = true →
      ∃ m : Quote × DecimalVal, minFirstKeyed (keyedRates tieRates) = some m ∧
        chooseRateId "" "" tieRates = some m.1.id ∧
        m.1 ∈ tieRates ∧ rateKey m.1 = some m.2 ∧
        (∀ q ∈ tieRates, ∀ d : DecimalVal, rateKey q = some d → m.2.toRat ≤ d.toRat) ∧
        (∃ i : Nat, (keyedRates tieRates)[i]? = some m ∧
          ∀ j : Nat, j < i → ∀ p : Quote × DecimalVal,
            (keyedRates tieRates)[j]? = some p → m.2.toRat < p.2.toRat)) ∧
    (allRatesParse tieRates = false →
      chooseRateId "" "" tieRates = tieRates.head?.map (fun q => q.id))) :=
  ⟨by decide,
   c4_amended_cheapest_with_crash_fallback "" "" tieRates (by decide) (by decide)⟩

def crashRates : List Quote :=
  [⟨"USPS", "First", some "abc", "r1"⟩, ⟨"UPS", "Ground", some "1.00", "r2"⟩]

/-- Counterexample to C4 as stated: "abc" does not parse while "1.00"
does, so the claim's exclusion rule would pick r2 (the lowest parseable
price); the code's `sorted` key raises on "abc" instead, the exception
handler takes over, and the first quote r1 is selected. -/
theorem c4_counterexample :
    pyFloat? "abc" = none ∧ pyFloat? "1.00" = some ⟨100, 2⟩ ∧
    chooseRateId "" "" crashRates = some "r1" ∧ ("r1" : String) ≠ "r2" := by decide

/-! ## Bulk purchase (`buy_labels_and_build_pdf`, `Shipping.py`)

A batch row as the buy loop reads it: the package-mask entry, the four
dimension columns checked by `_row_needs_dims`, and the desired
carrier/service used by rate selection.  The remote shipment returned by
`shipment.create` carries an id and the quoted rates; the create and buy
calls themselves are external (EasyPost), passed in as functions. -/

structure BatchRow where
  isPkg : Bool
  plen : String
  pwid : String
  phei : String
  pwt : String
  carrier : String
  service : String
deriving DecidableEq, Repr

structure ShpState where
  id : String
  rates : List Quote
deriving DecidableEq, Repr

/-- One dimension check of `_row_needs_dims`: the stripped value must be
non-empty and parse as a number greater than zero (`float(val) <= 0` is
`d.num <= 0` for an exact decimal, whose denominator is positive).
Python `float` strips its argument itself, so `float(val)` on the
pre-stripped value equals `pyFloat?` of the raw one. -/
def dimBad (v : String) : Bool :=
  if pyStrip v = "" then true
  else
    match pyFloat? v with
    | some d => decide (d.num ≤ 0)
    | none => true

/-- `_row_needs_dims` with the package mask present: non-package rows
never need dimensions; a package row needs them when any of
`parcel.length/width/height/weight` fails the check. -/
def _row_needs_dims (row : BatchRow) : Bool :=
  if !row.isPkg then false
  else dimBad row.plen || dimBad row.pwid || dimBad row.phei || dimBad row.pwt

/-- `_packages_missing_count`. -/
def _packages_missing_count (rows : List BatchRow) : Nat :=
  rows.countP _row_needs_dims

def exceptOk {ε α : Type} : Except ε α → Bool
  | .ok _ => true
  | .error _ => false

/-- One row of the buy loop: create the shipment, choose a rate id (a
falsy chosen id raises "No rates available for shipment."), then buy. -/
def processRow (create : BatchRow → Except String ShpState)
    (buy : String → String → Except String String) (row : BatchRow) :
    Except String String :=
  match create row with
  | .error e => .error e
  | .ok shp =>
    match chooseRateId row.carrier row.service shp.rates with
    | none => .error "No rates available for shipment."
    | some rid =>
      if rid = "" then .error "No rates available for shipment."
      else buy shp.id rid

/-- The accumulation step of the buy loop: a success appends to
`bought_ids`, a failure appends `(row, message)` to `errors` and the
loop continues. -/
def runBatchStep (proc : BatchRow → Except String String)
    (acc : List String × List (BatchRow × String)) (row : BatchRow) :
    List String × List (BatchRow × String) :=
  match proc row with
  | .ok sid => (acc.1 ++ [sid], acc.2)
  | .error e => (acc.1, acc.2 ++ [(row, e)])

/-- The whole row loop of `buy_labels_and_build_pdf`. -/
def runBatch (proc : BatchRow → Except String String) (rows : List BatchRow) :
    List String × List (BatchRow × String) :=
  rows.foldl (runBatchStep proc) ([], [])

/-- Outcome of `buy_labels_and_build_pdf`: the early returns (no data,
missing dimensions, no label purchased) and the completed path, which is
the only one that builds the PDF. -/
inductive BuyOutcome where
  | noData
  | missingDims (missing : Nat)
  | allFailed (errors : List (BatchRow × String))
  | completed (bought : List String) (errors : List (BatchRow × String))
deriving DecidableEq, Repr

/-- `buy_labels_and_build_pdf`: refuse on empty data, refuse when any
package row still needs dimensions (before any shipment is created),
else run the row loop; with zero purchases abort before the PDF build,
otherwise proceed to build the PDF from the bought ids. -/
def buy_labels_and_build_pdf (create : BatchRow → Except String ShpState)
    (buy : String → String → Except String String) (rows : List BatchRow) :
    BuyOutcome :=
  if rows.isEmpty then .noData
  else
    let missing := _packages_missing_count rows
    if missing ≠ 0 then .missingDims missing
    else
      let res := runBatch (processRow create buy) rows
      if res.1.isEmpty then .allFailed res.2
      else .completed res.1 res.2

/-- Whether the label/PDF stage runs for an outcome. -/
def pdfAttempted : BuyOutcome → Bool
  | .completed _ _ => true
  | _ => false

/-- Length bookkeeping for the buy loop: successes and failures are
counted exactly. -/
theorem runBatch_foldl_lengths (proc : BatchRow → Except String String)
    (rows : List BatchRow) :
    ∀ acc : List String × List (BatchRow × String),
      ((rows.foldl (runBatchStep proc) acc).1.length
          = acc.1.length + rows.countP (fun r => exceptOk (proc r))) ∧
      ((rows.foldl (runBatchStep proc) acc).2.length
          = acc.2.length + rows.countP (fun r => !exceptOk (proc r))) := by
  induction rows with
  | nil =>
    intro acc
    simp
  | cons r rs ih =>
    intro acc
    rw [List.foldl_cons]
    cases hp : proc r with
    | ok sid =>
      have hstep : runBatchStep proc acc r = (acc.1 ++ [sid], acc.2) := by
        rw [runBatchStep, hp]
      rw [hstep]
      obtain ⟨ih1, ih2⟩ := ih (acc.1 ++ [sid], acc.2)
      constructor
      · rw [ih1]
        simp [List.countP_cons, hp, exceptOk]
        omega
      · rw [ih2]
        simp [List.countP_cons, hp, exceptOk]
    | error e =>
      have hstep : runBatchStep proc acc r = (acc.1, acc.2 ++ [(r, e)]) := by
        rw [runBatchStep, hp]
      rw [hstep]
      obtain ⟨ih1, ih2⟩ := ih (acc.1, acc.2 ++ [(r, e)])
      constructor
      · rw [ih1]
        simp [List.countP_cons, hp, exceptOk]
      · rw [ih2]
        simp [List.countP_cons, hp, exceptOk]
        omega

/-- Successes and failures of a row partition the batch. -/
theorem countP_ok_add_not (proc : BatchRow → Except String String)
    (l : List BatchRow) :
    l.countP (fun r => exceptOk (proc r)) + l.countP (fun r => !exceptOk (proc r))
      = l.length := by
  induction l with
  | nil => rfl
  | cons a t ih =>
    rw [List.countP_cons, List.countP_cons, List.length_cons]
    cases hp : exceptOk (proc a) <;> simp [hp] <;> omega

/-! ## Claim C5 -/

/-- C5: under the buy gate (non-empty data, no package row missing
dimensions), (a) a batch where exactly one row fails — in creation, rate
selection or buying, all folded into `processRow` — yields N-1 bought
ids and exactly one (row, message) error entry; (b) whenever at least
one purchase succeeded the operation completes with the bought list and
the accumulated errors; (c) with zero successful purchases it aborts as
`allFailed` and the PDF build is never attempted. -/
theorem c5_partial_failure_tolerated (create : BatchRow → Except String ShpState)
    (buy : String → String → Except String String) (rows : List BatchRow)
    (hne : rows ≠ []) (hdims : _packages_missing_count rows = 0) :
    (rows.countP (fun r => !exceptOk (processRow create buy r)) = 1 →
        (runBatch (processRow create buy) rows).1.length = rows.length - 1 ∧
        (runBatch (processRow create buy) rows).2.length = 1) ∧
    ((runBatch (processRow create buy) rows).1 ≠ [] →
        buy_labels_and_build_pdf create buy rows
          = .completed (runBatch (processRow create buy) rows).1
              (runBatch (processRow create buy) rows).2) ∧
    ((runBatch (processRow create buy) rows).1 = [] →
        buy_labels_and_build_pdf create buy rows
          = .allFailed (runBatch (processRow create buy) rows).2 ∧
        pdfAttempted (buy_labels_and_build_pdf create buy rows) = false) := by
  have hEmpty : rows.isEmpty = false := by
    cases rows with
    | nil => exact absurd rfl hne
    | cons a t => rfl
  refine ⟨?_, ?_, ?_⟩
  · intro hone
    have htot := countP_ok_add_not (processRow create buy) rows
    obtain ⟨h1, h2⟩ := runBatch_foldl_lengths (processRow create buy) rows ([], [])
    constructor
    · rw [runBatch, h1]
      simp only [List.length_nil, Nat.zero_add]
      omega
    · rw [runBatch, h2, hone]
      rfl
  · intro hbne
    have hb : (runBatch (processRow create buy) rows).1.isEmpty = false := by
      cases hie : (runBatch (processRow create buy) rows).1.isEmpty
      · rfl
      · exact absurd (List.isEmpty_iff.mp hie) hbne
    simp [buy_labels_and_build_pdf, hEmpty, hdims, hb]
  · intro hbe
    have hb : (runBatch (processRow create buy) rows).1.isEmpty = true :=
      List.isEmpty_iff.mpr hbe
    have hres : buy_labels_and_build_pdf create buy rows
        = .allFailed (runBatch (processRow create buy) rows).2 := by
      simp [buy_labels_and_build_pdf, hEmpty, hdims, hb]
    exact ⟨hres, by rw [hres]; rfl⟩

/-- A concrete external create call that rejects exactly the rows whose
desired carrier is "FAIL". -/
def createW : BatchRow → Except String ShpState :=
  fun r =>
    if r.carrier = "FAIL" then .error "create failed"
    else .ok ⟨"shp_1", [⟨"USPS", "FIRST", some "1.00", "ra"⟩]⟩

/-- A concrete external buy call that always succeeds. -/
def buyW : String → String → Except String String := fun sid _ => .ok sid

def rowOkW : BatchRow := ⟨false, "", "", "", "", "USPS", "First"⟩

def rowBadW : BatchRow := ⟨false, "", "", "", "", "FAIL", "First"⟩

/-- Witness for C5 on a two-row batch whose second row fails at
creation: one success, one error entry, completion with both lists. -/
theorem c5_partial_failure_tolerated_witness :
    ((List.countP (fun r => !exceptOk (processRow createW buyW r)) [rowOkW, rowBadW] = 1 →
        (runBatch (processRow createW buyW) [rowOkW, rowBadW]).1.length
            = [rowOkW, rowBadW].length - 1 ∧
        (runBatch (processRow createW buyW) [rowOkW, rowBadW]).2.length = 1) ∧
    ((runBatch (processRow createW buyW) [rowOkW, rowBadW]).1 ≠ [] →
        buy_labels_and_build_pdf createW buyW [rowOkW, rowBadW]
          = .completed (runBatch (processRow createW buyW) [rowOkW, rowBadW]).1
              (runBatch (processRow createW buyW) [rowOkW, rowBadW]).2) ∧
    ((runBatch (processRow createW buyW) [rowOkW, rowBadW]).1 = [] →
        buy_labels_and_build_pdf createW buyW [rowOkW, rowBadW]
          = .allFailed (runBatch (processRow createW buyW) [rowOkW, rowBadW]).2 ∧
        pdfAttempted (buy_labels_and_build_pdf createW buyW [rowOkW, rowBadW]) = false)) ∧
    List.countP (fun r => !exceptOk (processRow createW buyW r)) [rowOkW, rowBadW] = 1 :=
  ⟨c5_partial_failure_tolerated createW buyW [rowOkW, rowBadW] (by decide) (by decide),
   by decide⟩

/-! ## Claim C10 -/

/-- A dimension column that passes the check is non-empty after
stripping and parses to a strictly positive number. -/
theorem dimBad_eq_false_elim (v : String) (h : dimBad v = false) :
    pyStrip v ≠ "" ∧ ∃ d : DecimalVal, pyFloat? v = some d ∧ 0 < d.toRat := by
  rw [dimBad] at h
  by_cases hs : pyStrip v = ""
  · rw [if_pos hs] at h
    exact Bool.noConfusion h
  · rw [if_neg hs] at h
    refine ⟨hs, ?_⟩
    cases hf : pyFloat? v with
    | none =>
      rw [hf] at h
      exact Bool.noConfusion h
    | some d =>
      rw [hf] at h
      have h' : decide (d.num ≤ 0) = false := h
      have hnle : ¬ d.num ≤ 0 := of_decide_eq_false h'
      exact ⟨d, rfl, DecimalVal.toRat_pos (lt_of_not_le hnle)⟩

/-- C10: when the bulk buy proceeds past the dimension gate
(`_packages_missing_count = 0`), every package row's length, width,
height and weight are non-empty after stripping and parse as strictly
positive numbers; and when any package row violates this the buy refuses
to start with `missingDims` — for every external create/buy whatsoever,
so no shipment creation is attempted. -/
theorem c10_dims_gate (rows : List BatchRow) :
    (_packages_missing_count rows = 0 →
      ∀ row ∈ rows, row.isPkg = true →
        ∀ v ∈ [row.plen, row.pwid, row.phei, row.pwt],
          pyStrip v ≠ "" ∧ ∃ d : DecimalVal, pyFloat? v = some d ∧ 0 < d.toRat) ∧
    (∀ (create : BatchRow → Except String ShpState)
        (buy : String → String → Except String String),
      rows ≠ [] →
      (∃ row ∈ rows, _row_needs_dims row = true) →
      buy_labels_and_build_pdf create buy rows
        = .missingDims (_packages_missing_count rows) ∧
      pdfAttempted (buy_labels_and_build_pdf create buy rows) = false) := by
  constructor
  · intro hzero row hrow hpkg v hv
    have hnd : _row_needs_dims row = false := by
      rw [_packages_missing_count] at hzero
      have hnot := List.countP_eq_zero.mp hzero row hrow
      cases hx : _row_needs_dims row
      · rfl
      · exact absurd hx hnot
    have hors : ((dimBad row.plen = false ∧ dimBad row.pwid = false) ∧
        dimBad row.phei = false) ∧ dimBad row.pwt = false := by
      rw [_row_needs_dims, hpkg] at hnd
      simpa using hnd
    have hv' : v = row.plen ∨ v = row.pwid ∨ v = row.phei ∨ v = row.pwt := by
      simpa using hv
    rcases hv' with rfl | rfl | rfl | rfl
    · exact dimBad_eq_false_elim _ hors.1.1.1
    · exact dimBad_eq_false_elim _ hors.1.1.2
    · exact dimBad_eq_false_elim _ hors.1.2
    · exact dimBad_eq_false_elim _ hors.2
  · intro create buy hne hbad
    have hEmpty : rows.isEmpty = false := by
      cases rows with
      | nil => exact absurd rfl hne
      | cons a t => rfl
    have hpos : _packages_missing_count rows ≠ 0 := by
      rw [_packages_missing_count]
      obtain ⟨row, hrow, hnd⟩ := hbad
      have := List.countP_pos_iff.mpr ⟨row, hrow, hnd⟩
      omega
    have hres : buy_labels_and_build_pdf create buy rows
        = .missingDims (_packages_missing_count rows) := by
      simp [buy_labels_and_build_pdf, hEmpty, hpos]
    exact ⟨hres, by rw [hres]; rfl⟩

def pkgRowGood : BatchRow := ⟨true, "4", "6", "0.75", "3.5", "USPS", "GroundAdvantage"⟩

def pkgRowBad : BatchRow := ⟨true, "4", "6", "", "3.5", "USPS", "GroundAdvantage"⟩

/-- Witness for C10: a batch whose only package row has all four values
positive passes the gate and indeed satisfies the parsed-positive
property; a batch whose package row has a blank height refuses to buy. -/
theorem c10_dims_gate_witness :
    (∀ row ∈ [pkgRowGood], row.isPkg = true →
        ∀ v ∈ [row.plen, row.pwid, row.phei, row.pwt],
          pyStrip v ≠ "" ∧ ∃ d : DecimalVal, pyFloat? v = some d ∧ 0 < d.toRat) ∧
    buy_labels_and_build_pdf createW buyW [pkgRowBad]
      = .missingDims (_packages_missing_count [pkgRowBad]) :=
  ⟨(c10_dims_gate [pkgRowGood]).1 (by decide),
   ((c10_dims_gate [pkgRowBad]).2 createW buyW (by decide)
      ⟨pkgRowBad, by decide, by decide⟩).1⟩

/-! ## Label cache and acquisition (`fetch_lables.py`)

The cache directory is a map from shipment id to file bytes (bytes as
`List Nat`).  The external world of one acquisition — the
`shipment.retrieve` call, the ordered SDK strategies (each either raises
or yields `extract_label_urls`' PNG url), the REST fallback and the
download — is a `LabelEnv`.  `fetch_or_cache_png_for_shipment` returns
(result, cache after the call, whether any network call was made). -/

def pngSig : List Nat := [137, 80, 78, 71, 13, 10, 26, 10]

/-- `try_load_cached_png`: the cached bytes, provided the file exists
and starts with the PNG signature. -/
def try_load_cached_png (cache : String → Option (List Nat)) (sid : String) :
    Option (List Nat) :=
  match cache sid with
  | some data => if data.take 8 = pngSig then some data else none
  | none => none

structure LabelEnv where
  retrieve : Except String Unit
  strategies : List (Except Unit (Option String))
  restFallback : Except String (List Nat)
  download : String → Except String (List Nat)

/-- The strategy loop: each raising strategy is swallowed; the first
truthy url (non-`None`, non-empty) wins. -/
def firstStrategyUrl : List (Except Unit (Option String)) → Option String
  | [] => none
  | .error _ :: rest => firstStrategyUrl rest
  | .ok u :: rest =>
    match u with
    | some url => if url ≠ "" then some url else firstStrategyUrl rest
    | none => firstStrategyUrl rest

/-- Obtain the label bytes: download from the strategies' url when one
was found, else the low-level REST fallback (which downloads itself). -/
def fetchBlob (env : LabelEnv) : Except String (List Nat) :=
  match firstStrategyUrl env.strategies with
  | some url => env.download url
  | none => env.restFallback

/-- `save_cached_png`: write the bytes for this id. -/
def updateCache (cache : String → Option (List Nat)) (sid : String)
    (blob : List Nat) : String → Option (List Nat) :=
  fun s => if s = sid then some blob else cache s

/-- `fetch_or_cache_png_for_shipment`: serve a valid cached file with no
network call; otherwise retrieve the shipment, obtain the bytes, verify
the PNG signature (raising without caching when it fails), cache and
return them. -/
def fetch_or_cache_png_for_shipment (env : LabelEnv)
    (cache : String → Option (List Nat)) (sid : String) :
    Except String (List Nat) × (String → Option (List Nat)) × Bool :=
  match try_load_cached_png cache sid with
  | some d => (.ok d, cache, false)
  | none =>
    match env.retrieve with
    | .error e => (.error e, cache, true)
    | .ok _ =>
      match fetchBlob env with
      | .error e => (.error e, cache, true)
      | .ok blob =>
        if blob.take 8 = pngSig then (.ok blob, updateCache cache sid blob, true)
        else (.error (sid ++ ": expected PNG content, got something else"), cache, true)

/-! ## Claim C6 -/

/-- C6: after any successful acquisition for an id — whether served from
cache or freshly fetched — every later call for that id returns the same
bytes from the unchanged cache and makes no network call at all, for any
later environment (strategies, REST fallback and download are never
consulted). -/
theorem c6_cached_never_refetches (env env2 : LabelEnv)
    (cache : String → Option (List Nat)) (sid : String) (b : List Nat)
    (cache' : String → Option (List Nat)) (used : Bool)
    (h : fetch_or_cache_png_for_shipment env cache sid = (.ok b, cache', used)) :
    fetch_or_cache_png_for_shipment env2 cache' sid = (.ok b, cache', false) := by
  rw [fetch_or_cache_png_for_shipment] at h
  cases hc : try_load_cached_png cache sid with
  | some d =>
    rw [hc] at h
    have e1 : d = b := Except.ok.inj (congrArg (fun t => t.1) h)
    have e2 : cache = cache' := congrArg (fun t => t.2.1) h
    subst e1
    subst e2
    rw [fetch_or_cache_png_for_shipment, hc]
  | none =>
    rw [hc] at h
    cases hr : env.retrieve with
    | error e =>
      rw [hr] at h
      exact Except.noConfusion (congrArg (fun t => t.1) h)
    | ok u =>
      rw [hr] at h
      cases hb : fetchBlob env with
      | error e =>
        rw [hb] at h
        exact Except.noConfusion (congrArg (fun t => t.1) h)
      | ok blob =>
        rw [hb] at h
        have h' : (if blob.take 8 = pngSig
            then ((.ok blob, updateCache cache sid blob, true) :
              Except String (List Nat) × (String → Option (List Nat)) × Bool)
            else (.error (sid ++ ": expected PNG content, got something else"),
              cache, true))
            = (.ok b, cache', used) := h
        by_cases hsig : blob.take 8 = pngSig
        · rw [if_pos hsig] at h'
          have e1 : blob = b := Except.ok.inj (congrArg (fun t => t.1) h')
          have e2 : updateCache cache sid blob = cache' := congrArg (fun t => t.2.1) h'
          subst e1
          subst e2
          have hload : try_load_cached_png (updateCache cache sid blob) sid
              = some blob := by
            simp [try_load_cached_png, updateCache, hsig]
          rw [fetch_or_cache_png_for_shipment, hload]
        · rw [if_neg hsig] at h'
          exact Except.noConfusion (congrArg (fun t => t.1) h')

def pngBlobW : List Nat := pngSig ++ [1, 2, 3]

/-- An environment whose second strategy yields a url for the blob. -/
def envW : LabelEnv :=
  { retrieve := .ok ()
    strategies := [.error (), .ok (some "url-1")]
    restFallback := .error "rest unavailable"
    download := fun url => if url = "url-1" then .ok pngBlobW else .error "404" }

/-- An environment in which every network operation fails. -/
def envDownW : LabelEnv :=
  { retrieve := .error "network down"
    strategies := []
    restFallback := .error "network down"
    download := fun _ => .error "network down" }

def cacheEmptyW : String → Option (List Nat) := fun _ => none

/-- Witness for C6: a first fetch downloads and caches the blob; the
second call returns it from cache with no network use even though every
network operation of its environment fails. -/
theorem c6_cached_never_refetches_witness :
    fetch_or_cache_png_for_shipment envW cacheEmptyW "shp_9"
      = (.ok pngBlobW, updateCache cacheEmptyW "shp_9" pngBlobW, true) ∧
    fetch_or_cache_png_for_shipment envDownW
        (updateCache cacheEmptyW "shp_9" pngBlobW) "shp_9"
      = (.ok pngBlobW, updateCache cacheEmptyW "shp_9" pngBlobW, false) :=
  ⟨rfl, c6_cached_never_refetches envW envDownW cacheEmptyW "shp_9" pngBlobW
    (updateCache cacheEmptyW "shp_9" pngBlobW) true rfl⟩

/-! ## Claim C7 -/

/-- C7: a cached file that does not begin with the PNG signature is a
cache miss — the call goes back to the network; and when the freshly
obtained bytes also fail the signature check, acquisition fails with the
"expected PNG content" error, returning no bytes and leaving the cache
unchanged (the bad bytes are not cached). -/
theorem c7_bad_cache_refetch_bad_blob_fails (env : LabelEnv)
    (cache : String → Option (List Nat)) (sid : String) (d : List Nat)
    (h1 : cache sid = some d) (h2 : d.take 8 ≠ pngSig) :
    (fetch_or_cache_png_for_shipment env cache sid).2.2 = true ∧
    (∀ blob : List Nat, env.retrieve = .ok () → fetchBlob env = .ok blob →
      blob.take 8 ≠ pngSig →
      fetch_or_cache_png_for_shipment env cache sid
        = (.error (sid ++ ": expected PNG content, got something else"),
            cache, true)) := by
  have hmiss : try_load_cached_png cache sid = none := by
    rw [try_load_cached_png, h1]
    show (if List.take 8 d = pngSig then some d else none) = none
    rw [if_neg h2]
  constructor
  · rw [fetch_or_cache_png_for_shipment, hmiss]
    cases hr : env.retrieve with
    | error e => rfl
    | ok u =>
      cases hb : fetchBlob env with
      | error e => rfl
      | ok blob =>
        by_cases hsig : blob.take 8 = pngSig
        · show (if blob.take 8 = pngSig
              then ((.ok blob, updateCache cache sid blob, true) :
                Except String (List Nat) × (String → Option (List Nat)) × Bool)
              else (.error (sid ++ ": expected PNG content, got something else"),
                cache, true)).2.2 = true
          rw [if_pos hsig]
        · show (if blob.take 8 = pngSig
              then ((.ok blob, updateCache cache sid blob, true) :
                Except String (List Nat) × (String → Option (List Nat)) × Bool)
              else (.error (sid ++ ": expected PNG content, got something else"),
                cache, true)).2.2 = true
          rw [if_neg hsig]
  · intro blob hr hb hbad
    rw [fetch_or_cache_png_for_shipment, hmiss, hr, hb]
    show (if blob.take 8 = pngSig
        then ((.ok blob, updateCache cache sid blob, true) :
          Except String (List Nat) × (String → Option (List Nat)) × Bool)
        else (.error (sid ++ ": expected PNG content, got something else"),
          cache, true))
      = (.error (sid ++ ": expected PNG content, got something else"), cache, true)
    rw [if_neg hbad]

def cacheBadW : String → Option (List Nat) :=
  fun s => if s = "shp_7" then some [1, 2, 3] else none

/-- An environment whose REST fallback returns bytes that are not a
PNG. -/
def envBadBlobW : LabelEnv :=
  { retrieve := .ok ()
    strategies := []
    restFallback := .ok [9, 9, 9]
    download := fun _ => .error "unused" }

/-- Witness for C7: a corrupt cached entry forces a network re-fetch,
and a corrupt downloaded blob makes the acquisition fail without
touching the cache. -/
theorem c7_bad_cache_refetch_bad_blob_fails_witness :
    (fetch_or_cache_png_for_shipment envBadBlobW cacheBadW "shp_7").2.2 = true ∧
    fetch_or_cache_png_for_shipment envBadBlobW cacheBadW "shp_7"
      = (.error ("shp_7" ++ ": expected PNG content, got something else"),
          cacheBadW, true) :=
  ⟨(c7_bad_cache_refetch_bad_blob_fails envBadBlobW cacheBadW "shp_7" [1, 2, 3]
      rfl (by decide)).1,
   (c7_bad_cache_refetch_bad_blob_fails envBadBlobW cacheBadW "shp_7" [1, 2, 3]
      rfl (by decide)).2 [9, 9, 9] rfl rfl (by decide)⟩

/-! ## Label transform (`fetch_lables.py`)

An image is modelled by its pixel size and colour mode.  `rotate(90,
expand=True)` swaps the two dimensions; `convert("RGB")` normalises the
mode; `resize` keeps the mode.  `int(x)` on the non-negative products
here is the floor. -/

def TARGET_WIDTH_IN : ℚ := 4

def TARGET_HEIGHT_IN : ℚ := 6

def TARGET_DPI : Nat := 300

structure PILImage where
  width : Nat
  height : Nat
  mode : String
deriving DecidableEq, Repr

def rotateExpand90 (img : PILImage) : PILImage := ⟨img.height, img.width, img.mode⟩

def convertRGB (img : PILImage) : PILImage := ⟨img.width, img.height, "RGB"⟩

/-- `ensure_fit`: an image already inside the box is returned unchanged;
otherwise both dimensions are multiplied by the common factor
`min(max_w/w, max_h/h)` and truncated (never below one pixel). -/
def ensure_fit (img : PILImage) (max_w max_h : Nat) : PILImage :=
  if img.width ≤ max_w ∧ img.height ≤ max_h then img
  else
    let scale : ℚ := min ((max_w : ℚ) / img.width) ((max_h : ℚ) / img.height)
    ⟨max 1 (⌊(img.width : ℚ) * scale⌋).toNat,
     max 1 (⌊(img.height : ℚ) * scale⌋).toNat, img.mode⟩

/-- A page-ready image: the canvas and where the content is pasted. -/
structure PageImage where
  canvasW : Nat
  canvasH : Nat
  background : String
  pasteX : Int
  pasteY : Int
  content : PILImage
deriving DecidableEq, Repr

def target_w_px : Nat := (⌊TARGET_WIDTH_IN * (TARGET_DPI : ℚ)⌋).toNat

def target_h_px : Nat := (⌊TARGET_HEIGHT_IN * (TARGET_DPI : ℚ)⌋).toNat

/-- `png_to_rotated_padded_pil`: rotate 90° (expanding), convert to RGB,
shrink into the 4x6-inch 300-DPI page, and paste at x = 0 (left
aligned), vertically centred, on a white canvas of exactly the page
size. -/
def png_to_rotated_padded_pil (img : PILImage) : PageImage :=
  let rotated := convertRGB (rotateExpand90 img)
  let fitted := ensure_fit rotated target_w_px target_h_px
  { canvasW := target_w_px, canvasH := target_h_px, background := "white",
    pasteX := 0, pasteY := ((target_h_px : Int) - (fitted.height : Int)) / 2,
    content := fitted }

def LETTER_KINDS : List String := ["letter", "flat", "envelope"]

/-- `str(predefined).lower() in ("letter", "flat", "envelope")`. -/
def isLetterKind (predefined : String) : Bool :=
  LETTER_KINDS.contains (pyLower predefined)

/-- The `is_letter` dispatch of `build_pdf_from_shipments_multipage`:
the pre-transform `client.shipment.retrieve(sid)` either succeeds with
the parcel's `predefined_package` string or raises; on any exception the
code runs `except Exception: is_letter = True`. -/
def is_letter_for (retrieved : Except String String) : Bool :=
  match retrieved with
  | .ok predefined => isLetterKind predefined
  | .error _ => true

/-- The per-shipment page of `build_pdf_from_shipments_multipage`:
letter-like parcels — and every shipment whose pre-transform retrieve
raised, because of the `except Exception: is_letter = True` default —
get the rotate/shrink/pad treatment; a parcel whose retrieve succeeded
with a non-letter type passes through unscaled with only
`convert("RGB")`. -/
def page_for_shipment (retrieved : Except String String) (img : PILImage) :
    PageImage :=
  if is_letter_for retrieved then png_to_rotated_padded_pil img
  else
    { canvasW := img.width, canvasH := img.height, background := "none",
      pasteX := 0, pasteY := 0, content := convertRGB img }

theorem target_w_px_eq : target_w_px = 1200 := by
  have h : TARGET_WIDTH_IN * (TARGET_DPI : ℚ) = ((1200 : Int) : ℚ) := by
    rw [TARGET_WIDTH_IN, TARGET_DPI]
    norm_num
  rw [target_w_px, h, Int.floor_intCast]
  rfl

theorem target_h_px_eq : target_h_px = 1800 := by
  have h : TARGET_HEIGHT_IN * (TARGET_DPI : ℚ) = ((1800 : Int) : ℚ) := by
    rw [TARGET_HEIGHT_IN, TARGET_DPI]
    norm_num
  rw [target_h_px, h, Int.floor_intCast]
  rfl

/-- What `ensure_fit` guarantees into a 1200x1800 box: the result fits
the box, never exceeds the original (no upscaling), keeps the mode, and
both dimensions come from one common scale factor in (0, 1] (aspect
ratio preserved up to the pixel truncation). -/
theorem ensure_fit_spec (img : PILImage) (hw : 1 ≤ img.width) (hh : 1 ≤ img.height) :
    (ensure_fit img 1200 1800).width ≤ 1200 ∧
    (ensure_fit img 1200 1800).height ≤ 1800 ∧
    (ensure_fit img 1200 1800).width ≤ img.width ∧
    (ensure_fit img 1200 1800).height ≤ img.height ∧
    (ensure_fit img 1200 1800).mode = img.mode ∧
    ∃ s : ℚ, 0 < s ∧ s ≤ 1 ∧
      (ensure_fit img 1200 1800).width = max 1 (⌊(img.width : ℚ) * s⌋).toNat ∧
      (ensure_fit img 1200 1800).height = max 1 (⌊(img.height : ℚ) * s⌋).toNat := by
  have hwq : (0 : ℚ) < (img.width : ℚ) := by exact_mod_cast hw
  have hhq : (0 : ℚ) < (img.height : ℚ) := by exact_mod_cast hh
  rw [ensure_fit]
  by_cases hfit : img.width ≤ 1200 ∧ img.height ≤ 1800
  · rw [if_pos hfit]
    have hfl : ∀ n : Nat, 1 ≤ n → n = max 1 (⌊(n : ℚ) * 1⌋).toNat := by
      intro n hn
      rw [mul_one]
      have : ⌊(n : ℚ)⌋ = (n : Int) := Int.floor_natCast n
      rw [this]
      simp
      omega
    exact ⟨hfit.1, hfit.2, le_refl _, le_refl _, rfl, 1, one_pos, le_refl 1,
      hfl img.width hw, hfl img.height hh⟩
  · rw [if_neg hfit]
    have hcase : 1200 < img.width ∨ 1800 < img.height := by omega
    have hs1 : min ((1200 : ℚ) / img.width) ((1800 : ℚ) / img.height) ≤ 1 := by
      rcases hcase with hc | hc
      · refine le_trans (min_le_left _ _) ?_
        rw [div_le_one hwq]
        exact_mod_cast le_of_lt (by exact_mod_cast hc)
      · refine le_trans (min_le_right _ _) ?_
        rw [div_le_one hhq]
        exact_mod_cast le_of_lt (by exact_mod_cast hc)
    have hs0 : 0 < min ((1200 : ℚ) / img.width) ((1800 : ℚ) / img.height) :=
      lt_min (by positivity) (by positivity)
    set s : ℚ := min ((1200 : ℚ) / img.width) ((1800 : ℚ) / img.height) with hsdef
    have hbW : (⌊(img.width : ℚ) * s⌋).toNat ≤ 1200 := by
      have hle : (img.width : ℚ) * s ≤ 1200 := by
        calc (img.width : ℚ) * s
            ≤ (img.width : ℚ) * ((1200 : ℚ) / img.width) :=
              mul_le_mul_of_nonneg_left (min_le_left _ _) (le_of_lt hwq)
          _ = 1200 := by field_simp
      have hfle : ⌊(img.width : ℚ) * s⌋ ≤ (1200 : Int) := by
        have := Int.floor_le_floor hle
        simpa using this
      exact Int.toNat_le.mpr (by exact_mod_cast hfle)
    have hbH : (⌊(img.height : ℚ) * s⌋).toNat ≤ 1800 := by
      have hle : (img.height : ℚ) * s ≤ 1800 := by
        calc (img.height : ℚ) * s
            ≤ (img.height : ℚ) * ((1800 : ℚ) / img.height) :=
              mul_le_mul_of_nonneg_left (min_le_right _ _) (le_of_lt hhq)
          _ = 1800 := by field_simp
      have hfle : ⌊(img.height : ℚ) * s⌋ ≤ (1800 : Int) := by
        have := Int.floor_le_floor hle
        simpa using this
      exact Int.toNat_le.mpr (by exact_mod_cast hfle)
    have hnW : (⌊(img.width : ℚ) * s⌋).toNat ≤ img.width := by
      have hle : (img.width : ℚ) * s ≤ (img.width : ℚ) := by
        calc (img.width : ℚ) * s ≤ (img.width : ℚ) * 1 :=
              mul_le_mul_of_nonneg_left hs1 (le_of_lt hwq)
          _ = _ := mul_one _
      have hfle : ⌊(img.width : ℚ) * s⌋ ≤ (img.width : Int) := by
        have := Int.floor_le_floor hle
        rw [Int.floor_natCast] at this
        exact this
      exact Int.toNat_le.mpr (by exact_mod_cast hfle)
    have hnH : (⌊(img.height : ℚ) * s⌋).toNat ≤ img.height := by
      have hle : (img.height : ℚ) * s ≤ (img.height : ℚ) := by
        calc (img.height : ℚ) * s ≤ (img.height : ℚ) * 1 :=
              mul_le_mul_of_nonneg_left hs1 (le_of_lt hhq)
          _ = _ := mul_one _
      have hfle : ⌊(img.height : ℚ) * s⌋ ≤ (img.height : Int) := by
        have := Int.floor_le_floor hle
        rw [Int.floor_natCast] at this
        exact this
      exact Int.toNat_le.mpr (by exact_mod_cast hfle)
    refine ⟨?_, ?_, ?_, ?_, rfl, s, hs0, hs1, rfl, rfl⟩
    · show max 1 (⌊(img.width : ℚ) * s⌋).toNat ≤ 1200
      omega
    · show max 1 (⌊(img.height : ℚ) * s⌋).toNat ≤ 1800
      omega
    · show max 1 (⌊(img.width : ℚ) * s⌋).toNat ≤ img.width
      omega
    · show max 1 (⌊(img.height : ℚ) * s⌋).toNat ≤ img.height
      omega

/-! ## Claim C8 -/

/-- C8 amended: whenever the dispatch lands on the letter path — a
retrieve that reported a letter-like type (letter/flat/envelope,
case-insensitive) or a retrieve that raised, since the code then
defaults `is_letter = True` — the page is a white canvas of exactly
1200x1800 pixels (4x6 inches at 300 DPI); the label is rotated 90
degrees (so its sides swap), scaled only downward by one common factor
in (0, 1] to fit the page, pasted at x = 0 (left-aligned) and
vertically centred.  Only a parcel whose retrieve succeeded with a
non-letter type passes through unscaled with RGB conversion alone, and
a failed retrieve always yields the letter treatment. -/
theorem c8_letter_rotated_fitted_padded (retrieved : Except String String)
    (img : PILImage) (hkind : is_letter_for retrieved = true)
    (hw : 1 ≤ img.width) (hh : 1 ≤ img.height) :
    ((page_for_shipment retrieved img).canvasW = 1200 ∧
     (page_for_shipment retrieved img).canvasH = 1800 ∧
     (page_for_shipment retrieved img).background = "white" ∧
     (page_for_shipment retrieved img).pasteX = 0 ∧
     (page_for_shipment retrieved img).pasteY
        = ((1800 : Int)
            - ((page_for_shipment retrieved img).content.height : Int)) / 2 ∧
     (page_for_shipment retrieved img).content.width ≤ 1200 ∧
     (page_for_shipment retrieved img).content.height ≤ 1800 ∧
     (page_for_shipment retrieved img).content.width ≤ img.height ∧
     (page_for_shipment retrieved img).content.height ≤ img.width ∧
     (page_for_shipment retrieved img).content.mode = "RGB" ∧
     (∃ s : ℚ, 0 < s ∧ s ≤ 1 ∧
        (page_for_shipment retrieved img).content.width
          = max 1 (⌊(img.height : ℚ) * s⌋).toNat ∧
        (page_for_shipment retrieved img).content.height
          = max 1 (⌊(img.width : ℚ) * s⌋).toNat)) ∧
    (∀ pk : String, isLetterKind pk = false →
       page_for_shipment (.ok pk) img
         = ⟨img.width, img.height, "none", 0, 0, convertRGB img⟩) ∧
    (∀ err : String,
       page_for_shipment (.error err) img = png_to_rotated_padded_pil img) := by
  have hpage : page_for_shipment retrieved img = png_to_rotated_padded_pil img := by
    rw [page_for_shipment, if_pos hkind]
  have hexp : png_to_rotated_padded_pil img =
      { canvasW := 1200, canvasH := 1800, background := "white", pasteX := 0,
        pasteY := ((1800 : Int)
          - ((ensure_fit ⟨img.height, img.width, "RGB"⟩ 1200 1800).height : Int)) / 2,
        content := ensure_fit ⟨img.height, img.width, "RGB"⟩ 1200 1800 } := by
    simp only [png_to_rotated_padded_pil, target_w_px_eq, target_h_px_eq]
    rfl
  have hfit := ensure_fit_spec ⟨img.height, img.width, "RGB"⟩ hh hw
  obtain ⟨f1, f2, f3, f4, f5, s, hs0, hs1, hws, hhs⟩ := hfit
  rw [hpage, hexp]
  refine ⟨⟨rfl, rfl, rfl, rfl, rfl, f1, f2, f3, f4, f5, s, hs0, hs1, hws, hhs⟩, ?_, ?_⟩
  · intro pk hpk
    rw [page_for_shipment, if_neg (by simp [is_letter_for, hpk])]
  · intro err
    rw [page_for_shipment,
      if_pos (show is_letter_for (.error err) = true from rfl)]
    exact hexp

/-- Witness for the amended C8 at a 800x1000 pixel label whose retrieve
reported "Letter": the rotated image (1000x800) already fits the
1200x1800 page and is placed left-aligned, vertically centred; an image
retrieved with a non-letter type passes through with only RGB
conversion; a failed retrieve takes the letter path. -/
theorem c8_letter_rotated_fitted_padded_witness :
    ((page_for_shipment (.ok "Letter") ⟨800, 1000, "P"⟩).canvasW = 1200 ∧
     (page_for_shipment (.ok "Letter") ⟨800, 1000, "P"⟩).canvasH = 1800 ∧
     (page_for_shipment (.ok "Letter") ⟨800, 1000, "P"⟩).background = "white" ∧
     (page_for_shipment (.ok "Letter") ⟨800, 1000, "P"⟩).pasteX = 0 ∧
     (page_for_shipment (.ok "Letter") ⟨800, 1000, "P"⟩).pasteY
        = ((1800 : Int)
            - ((page_for_shipment (.ok "Letter")
                ⟨800, 1000, "P"⟩).content.height : Int)) / 2 ∧
     (page_for_shipment (.ok "Letter") ⟨800, 1000, "P"⟩).content.width ≤ 1200 ∧
     (page_for_shipment (.ok "Letter") ⟨800, 1000, "P"⟩).content.height ≤ 1800 ∧
     (page_for_shipment (.ok "Letter") ⟨800, 1000, "P"⟩).content.width ≤ 1000 ∧
     (page_for_shipment (.ok "Letter") ⟨800, 1000, "P"⟩).content.height ≤ 800 ∧
     (page_for_shipment (.ok "Letter") ⟨800, 1000, "P"⟩).content.mode = "RGB" ∧
     (∃ s : ℚ, 0 < s ∧ s ≤ 1 ∧
        (page_for_shipment (.ok "Letter") ⟨800, 1000, "P"⟩).content.width
          = max 1 (⌊((1000 : Nat) : ℚ) * s⌋).toNat ∧
        (page_for_shipment (.ok "Letter") ⟨800, 1000, "P"⟩).content.height
          = max 1 (⌊((800 : Nat) : ℚ) * s⌋).toNat)) ∧
    (∀ pk : String, isLetterKind pk = false →
       page_for_shipment (.ok pk) ⟨800, 1000, "P"⟩
         = ⟨800, 1000, "none", 0, 0, convertRGB ⟨800, 1000, "P"⟩⟩) ∧
    (∀ err : String,
       page_for_shipment (.error err) ⟨800, 1000, "P"⟩
         = png_to_rotated_padded_pil ⟨800, 1000, "P"⟩) :=
  c8_letter_rotated_fitted_padded (.ok "Letter") ⟨800, 1000, "P"⟩ (by decide)
    (by decide) (by decide)

/-- Counterexample to C8 as stated: when the pre-transform retrieve for
a shipment raises — whatever the shipment's actual predefined package
type, for instance the non-letter "parcel" — the `except Exception:
is_letter = True` default sends the label through the letter transform:
the result is a white 1200x1800 page, not the claimed unscaled
pass-through with colour conversion only. -/
theorem c8_counterexample :
    isLetterKind "parcel" = false ∧
    page_for_shipment (.error "retrieve failed") ⟨800, 1000, "P"⟩
      = png_to_rotated_padded_pil ⟨800, 1000, "P"⟩ ∧
    (page_for_shipment (.error "retrieve failed") ⟨800, 1000, "P"⟩).background
      = "white" ∧
    (page_for_shipment (.error "retrieve failed") ⟨800, 1000, "P"⟩).canvasW
      = 1200 ∧
    page_for_shipment (.error "retrieve failed") ⟨800, 1000, "P"⟩
      ≠ ⟨800, 1000, "none", 0, 0, convertRGB ⟨800, 1000, "P"⟩⟩ := by
  refine ⟨by decide, rfl, rfl, target_w_px_eq, ?_⟩
  intro h
  have hbg : ("white" : String) = "none" := congrArg PageImage.background h
  exact absurd hbg (by decide)
